import Mathlib

/-!
Verification development for the rfc7807 Go package (src/rfc7807.go).

The package is embedded shallowly: all of its state is made explicit.

* Go maps (`problemHandlers`, the per-request `problem` object, HTTP header
  maps, the chi route table) are modelled as key-unique association lists
  with `setAssoc` / `lookupAssoc` mirroring Go map assignment and read.
* The `http.ResponseWriter` collaborator is modelled by `ResponseWriter`
  following net/http's documented contract: the header map may always be
  mutated, but the headers actually transmitted are the ones present at the
  first `WriteHeader` (or implicit `WriteHeader 200` on the first `Write`);
  later changes to the map have no effect on the sent response.  When that
  transmitted snapshot lacks a `Content-Type`, the first non-empty `Write`
  adds one sniffed from the body bytes (`detectContentType`, modelling
  `http.DetectContentType`), per `Write`'s documented contract.
* `net/url` and `path` (external standard-library collaborators) are
  modelled byte-faithfully for the operations the package uses:
  `url.PathEscape`, `url.Parse` (for absolute scheme://host/path URLs,
  rejecting control characters exactly as Go does), `URL.String` (which
  re-escapes the stored decoded path) and `path.Join`/`path.Clean`.
* `encoding/json` is modelled by `encodeProblem`: Go serializes a
  `map[string]interface{}` with keys sorted bytewise, `SetIndent("", "  ")`
  two-space indentation, HTML-escaping inside strings, and a trailing
  newline appended by `Encoder.Encode`.
* `html/template` is modelled by a small field-chain template engine with
  the two failure modes the package's registration path can propagate:
  a parse failure (malformed action / unclosed `\x7b\x7b`) and an execution
  failure (a field chain applied to a string value).
* A Go run-time crash (the nil `*url.URL` dereference in `HtmlDoc` when
  `url.Parse` fails) is modelled by `Option`: `none` is the crash.
-/

namespace Rfc7807

/-- Go map assignment `m[k] = v` on a key-unique association list:
replaces the existing binding for `k`, or appends a new one. -/
def setAssoc {α β : Type} [DecidableEq α] : List (α × β) → α → β → List (α × β)
  | [], k, v => [(k, v)]
  | x :: xs, k, v => if x.1 = k then (k, v) :: xs else x :: setAssoc xs k v

/-- Go map read `m[k]`: `none` plays the role of the zero value / nil entry
for a missing key. -/
def lookupAssoc {α β : Type} [DecidableEq α] : List (α × β) → α → Option β
  | [], _ => none
  | x :: xs, k => if x.1 = k then some x.2 else lookupAssoc xs k

/-- UTF-8 encoding of one character, as the list of its byte values.
Go strings are byte strings; `url` escaping operates bytewise. -/
def utf8Bytes (c : Char) : List Nat :=
  let n := c.toNat
  if n < 0x80 then [n]
  else if n < 0x800 then
    [0xC0 + (n >>> 6), 0x80 + (n % 64)]
  else if n < 0x10000 then
    [0xE0 + (n >>> 12), 0x80 + ((n >>> 6) % 64), 0x80 + (n % 64)]
  else
    [0xF0 + (n >>> 18), 0x80 + ((n >>> 12) % 64), 0x80 + ((n >>> 6) % 64), 0x80 + (n % 64)]

/-- The UTF-8 bytes of a string. -/
def stringToBytes (s : String) : List Nat :=
  (s.data.map utf8Bytes).flatten

/-- Upper-case hex digit, as used by Go's URL escaping (`upperhex`). -/
def hexUpperChar (n : Nat) : Char :=
  if n < 10 then Char.ofNat (48 + n) else Char.ofNat (55 + n)

/-- Lower-case hex digit, as used by Go's JSON `\u00XX` escapes. -/
def hexLowerChar (n : Nat) : Char :=
  if n < 10 then Char.ofNat (48 + n) else Char.ofNat (87 + n)

/-- The two escaping modes of `net/url` that this package exercises:
`path` (used by `URL.String` via `EscapedPath`) and `pathSegment`
(used by `url.PathEscape`). -/
inductive EscapeMode
  | path
  | pathSegment
deriving DecidableEq

/-- Go `net/url.shouldEscape` restricted to the two modes above:
ASCII alphanumerics and `- _ . ~` are kept; of the reserved characters
`$ & + , / : ; = ? @`, path mode escapes only `?` and path-segment mode
escapes `/ ; , ?`; every other byte (including `%` itself) is escaped. -/
def shouldEscapeByte (n : Nat) (m : EscapeMode) : Bool :=
  if (97 ≤ n && n ≤ 122) || (65 ≤ n && n ≤ 90) || (48 ≤ n && n ≤ 57) then false
  else if n == 45 || n == 95 || n == 46 || n == 126 then false
  else if n == 36 || n == 38 || n == 43 || n == 44 || n == 47 ||
          n == 58 || n == 59 || n == 61 || n == 63 || n == 64 then
    match m with
    | .path => n == 63
    | .pathSegment => n == 47 || n == 59 || n == 44 || n == 63
  else true

/-- Escape a list of bytes, emitting `%XX` for bytes that need escaping. -/
def escapeBytes (m : EscapeMode) : List Nat → String
  | [] => ""
  | b :: bs =>
    (if shouldEscapeByte b m then String.mk ['%', hexUpperChar (b / 16), hexUpperChar (b % 16)]
     else String.singleton (Char.ofNat b)) ++ escapeBytes m bs

/-- Go `net/url.escape`: bytewise percent-escaping of a string. -/
def urlEscape (s : String) (m : EscapeMode) : String :=
  escapeBytes m (stringToBytes s)

/-- Go `url.PathEscape`: escape a string so it can be placed inside a URL
path segment. -/
def pathEscape (s : String) : String :=
  urlEscape s .pathSegment

/-- One step of the lexical `path.Clean` stack computation over the
slash-separated parts of the path. -/
def cleanStep (rooted : Bool) (stack : List String) (part : String) : List String :=
  if part = "" || part = "." then stack
  else if part = ".." then
    match stack with
    | [] => if rooted then [] else [".."]
    | top :: rest => if top = ".." then part :: top :: rest else rest
  else part :: stack

/-- Split a list of characters on a separator character. -/
def splitOnChar (sep : Char) : List Char → List (List Char)
  | [] => [[]]
  | c :: cs =>
    if c = sep then [] :: splitOnChar sep cs
    else
      match splitOnChar sep cs with
      | [] => [[c]]
      | h :: t => (c :: h) :: t

/-- Join strings with a separator (used to rebuild cleaned paths). -/
def joinSep (sep : String) : List String → String
  | [] => ""
  | [x] => x
  | x :: xs => x ++ sep ++ joinSep sep xs

/-- Go `path.Clean`: lexically canonicalize a slash-separated path
(drop empty and `.` elements, resolve `..`, keep rootedness), returning
`.` for an empty result. -/
def pathClean (s : String) : String :=
  if s = "" then "."
  else
    let rooted := match s.data with
      | [] => false
      | c :: _ => c = '/'
    let parts := (splitOnChar '/' s.data).map String.mk
    let stack := parts.foldl (cleanStep rooted) []
    let out := (if rooted then "/" else "") ++ joinSep "/" stack.reverse
    if out = "" then "." else out

/-- Go `path.Join` for two elements: empty elements are dropped, the rest
are joined with `/` and the result is cleaned; two empties give `""`. -/
def pathJoin (a b : String) : String :=
  if a = "" && b = "" then ""
  else if a = "" then pathClean b
  else pathClean (a ++ "/" ++ b)

/-- Parsed absolute URL as this package uses it: scheme, host, and the
decoded path (`net/url.URL` restricted to the fields the code touches). -/
structure GoURL where
  scheme : String
  host : String
  path : String
deriving DecidableEq, Repr

/-- Go `strings.ContainsCTLByte`: any byte below 0x20, or 0x7f. -/
def containsCtl (s : String) : Bool :=
  (stringToBytes s).any (fun b => b < 32 || b == 127)

/-- List-level check that `pre` is an initial segment of `l`. -/
def leadsList : List Char → List Char → Bool
  | [], _ => true
  | _ :: _, [] => false
  | a :: as, b :: bs => a = b && leadsList as bs

/-- Split a character list at the first occurrence of `sep`,
returning the parts before and after it; `none` if `sep` never occurs. -/
def splitAtSub (sep : List Char) : List Char → Option (List Char × List Char)
  | [] => none
  | c :: cs =>
    if leadsList sep (c :: cs) then some ([], (c :: cs).drop sep.length)
    else (splitAtSub sep cs).map (fun p => (c :: p.1, p.2))

/-- ASCII lower-casing of one character (Go lower-cases the scheme). -/
def charLower (c : Char) : Char :=
  if 65 ≤ c.toNat ∧ c.toNat ≤ 90 then Char.ofNat (c.toNat + 32) else c

/-- Go scheme syntax: one letter followed by letters, digits, `+`, `-`, `.`. -/
def validScheme (s : String) : Bool :=
  match s.data with
  | [] => false
  | c :: cs => c.isAlpha && cs.all (fun d => d.isAlpha || d.isDigit || d = '+' || d = '-' || d = '.')

/-- Go `url.Parse`, modelled for the absolute `scheme://host/path` URLs this
package consumes as base URLs.  Faithful to Go on the points the claims
need: a URL containing an ASCII control byte is rejected (Go returns a nil
`*URL` plus an error); the scheme is lower-cased; host runs to the first
slash and the rest is the path.  Paths that would need percent-decoding are
out of scope and rejected, so the stored `path` is always the decoded path. -/
def urlParse (s : String) : Option GoURL :=
  if containsCtl s then none
  else
    match splitAtSub [':', '/', '/'] s.data with
    | none => none
    | some (sch, rest) =>
      if validScheme (String.mk sch) then
        let host := rest.takeWhile (fun c => c ≠ '/')
        let path := rest.drop host.length
        if path.any (fun c => c = '%') then none
        else some { scheme := String.mk (sch.map charLower), host := String.mk host, path := String.mk path }
      else none

/-- Go `URL.String` for the URLs above: `scheme://host` followed by the
escaped form of the decoded path (`EscapedPath` with an empty `RawPath`
re-escapes `u.Path`, turning any literal `%` into `%25`). -/
def urlString (u : GoURL) : String :=
  let p := urlEscape u.path .path
  let sep := match p.data with
    | [] => ""
    | c :: _ => if c = '/' || u.host = "" then "" else "/"
  u.scheme ++ "://" ++ u.host ++ sep ++ p

/-- JSON-serializable values, covering the shapes the package actually
places in a problem object: strings (type, title, detail), integers
(status), and arbitrary flat extension values. -/
inductive JsonValue
  | str (s : String)
  | int (i : Int)
  | bool (b : Bool)
  | null
deriving DecidableEq, Repr

/-- Go `encoding/json` escaping of one character inside a string literal,
with the encoder's default HTML escaping (`<`, `>`, `&` become `\u00XX`),
`\"`, `\\`, `\n`, `\r`, `\t` shorthands, `\u00XX` for other control bytes
and ` `/` ` for the two line separators. -/
def jsonEscapeChar (c : Char) : String :=
  if c = '\"' then "\\\""
  else if c = '\\' then "\\\\"
  else if c = '\n' then "\\n"
  else if c = '\r' then "\\r"
  else if c = '\t' then "\\t"
  else if c = '<' || c = '>' || c = '&' || c.toNat < 32 then
    "\\u00" ++ String.mk [hexLowerChar (c.toNat / 16), hexLowerChar (c.toNat % 16)]
  else if c.toNat = 0x2028 || c.toNat = 0x2029 then
    "\\u202" ++ String.mk [hexLowerChar (c.toNat % 16)]
  else String.singleton c

/-- Go JSON escaping of a whole string (without the surrounding quotes). -/
def jsonEscape (s : String) : String :=
  (s.data.map jsonEscapeChar).foldr (· ++ ·) ""

/-- Serialize one JSON value the way `encoding/json` renders it. -/
def encodeJsonValue : JsonValue → String
  | .str s => "\"" ++ jsonEscape s ++ "\""
  | .int i => toString i
  | .bool b => if b then "true" else "false"
  | .null => "null"

/-- Bytewise (equivalently, code-point-wise) strict order on strings, the
order in which Go sorts JSON object keys. -/
def charListLt : List Char → List Char → Bool
  | [], [] => false
  | [], _ :: _ => true
  | _ :: _, [] => false
  | a :: as, b :: bs =>
    if a.toNat < b.toNat then true
    else if b.toNat < a.toNat then false
    else charListLt as bs

/-- Key order used by Go when serializing a map. -/
def keyLt (a b : String) : Bool :=
  charListLt a.data b.data

/-- Insert an entry into a key-sorted entry list. -/
def insertByKey (e : String × JsonValue) : List (String × JsonValue) → List (String × JsonValue)
  | [] => [e]
  | x :: xs => if keyLt x.1 e.1 then x :: insertByKey e xs else e :: x :: xs

/-- Sort entries by key, as Go does before serializing a map. -/
def sortByKey (m : List (String × JsonValue)) : List (String × JsonValue) :=
  m.foldr insertByKey []

/-- Go `json.Encoder` with `SetIndent("", "  ")` applied to a
`map[string]interface{}`: keys sorted bytewise, two-space indentation, and
the newline that `Encoder.Encode` always appends.  This is the exact byte
string the dispatch paths write as the response body. -/
def encodeProblem (m : List (String × JsonValue)) : String :=
  let entries := sortByKey m
  let line := fun (e : String × JsonValue) => "  \"" ++ jsonEscape e.1 ++ "\": " ++ encodeJsonValue e.2
  (match entries with
   | [] => "\x7b\x7d"
   | _ => "\x7b\n" ++ joinSep ",\n" (entries.map line) ++ "\n\x7d") ++ "\n"

/-- Go `http.StatusText`: the standard reason phrase for a status code,
`""` for an unknown code. -/
def statusText (code : Int) : String :=
  if code = 100 then "Continue"
  else if code = 101 then "Switching Protocols"
  else if code = 102 then "Processing"
  else if code = 103 then "Early Hints"
  else if code = 200 then "OK"
  else if code = 201 then "Created"
  else if code = 202 then "Accepted"
  else if code = 203 then "Non-Authoritative Information"
  else if code = 204 then "No Content"
  else if code = 205 then "Reset Content"
  else if code = 206 then "Partial Content"
  else if code = 207 then "Multi-Status"
  else if code = 208 then "Already Reported"
  else if code = 226 then "IM Used"
  else if code = 300 then "Multiple Choices"
  else if code = 301 then "Moved Permanently"
  else if code = 302 then "Found"
  else if code = 303 then "See Other"
  else if code = 304 then "Not Modified"
  else if code = 305 then "Use Proxy"
  else if code = 307 then "Temporary Redirect"
  else if code = 308 then "Permanent Redirect"
  else if code = 400 then "Bad Request"
  else if code = 401 then "Unauthorized"
  else if code = 402 then "Payment Required"
  else if code = 403 then "Forbidden"
  else if code = 404 then "Not Found"
  else if code = 405 then "Method Not Allowed"
  else if code = 406 then "Not Acceptable"
  else if code = 407 then "Proxy Authentication Required"
  else if code = 408 then "Request Timeout"
  else if code = 409 then "Conflict"
  else if code = 410 then "Gone"
  else if code = 411 then "Length Required"
  else if code = 412 then "Precondition Failed"
  else if code = 413 then "Request Entity Too Large"
  else if code = 414 then "Request URI Too Long"
  else if code = 415 then "Unsupported Media Type"
  else if code = 416 then "Requested Range Not Satisfiable"
  else if code = 417 then "Expectation Failed"
  else if code = 418 then "I\x27m a teapot"
  else if code = 421 then "Misdirected Request"
  else if code = 422 then "Unprocessable Entity"
  else if code = 423 then "Locked"
  else if code = 424 then "Failed Dependency"
  else if code = 425 then "Too Early"
  else if code = 426 then "Upgrade Required"
  else if code = 428 then "Precondition Required"
  else if code = 429 then "Too Many Requests"
  else if code = 431 then "Request Header Fields Too Large"
  else if code = 451 then "Unavailable For Legal Reasons"
  else if code = 500 then "Internal Server Error"
  else if code = 501 then "Not Implemented"
  else if code = 502 then "Bad Gateway"
  else if code = 503 then "Service Unavailable"
  else if code = 504 then "Gateway Timeout"
  else if code = 505 then "HTTP Version Not Supported"
  else if code = 506 then "Variant Also Negotiates"
  else if code = 507 then "Insufficient Storage"
  else if code = 508 then "Loop Detected"
  else if code = 510 then "Not Extended"
  else if code = 511 then "Network Authentication Required"
  else ""

/-- Whitespace bytes the content sniffer skips before matching tag
signatures (WHATWG mimesniff: tab, newline, form feed, carriage return,
space). -/
def sniffWS (b : Nat) : Bool :=
  b == 9 || b == 10 || b == 12 || b == 13 || b == 32

/-- Go `htmlSig.match`: the signature (written with upper-case letters)
must match the data case-insensitively and be followed by a space or `>`. -/
def htmlSigMatch : List Nat → List Nat → Bool
  | [], b :: _ => b == 32 || b == 62
  | [], [] => false
  | s :: ss, b :: bs =>
    (if 65 ≤ s && s ≤ 90 then
      (if 97 ≤ b && b ≤ 122 then b - 32 else b) == s
    else b == s) && htmlSigMatch ss bs
  | _ :: _, [] => false

/-- The HTML tag signatures of Go's sniffer, in order. -/
def htmlSigs : List String :=
  ["<!DOCTYPE HTML", "<HTML", "<HEAD", "<SCRIPT", "<IFRAME", "<H1", "<DIV", "<FONT",
   "<TABLE", "<A", "<STYLE", "<TITLE", "<B", "<BODY", "<BR", "<P", "<!--"]

/-- Byte-pattern prefix match; `none` entries are wildcard bytes (the
zero-mask positions of Go's masked signatures), and the data must be at
least as long as the pattern. -/
def patMatch : List (Option Nat) → List Nat → Bool
  | [], _ => true
  | _ :: _, [] => false
  | some p :: ps, d :: ds => (d == p) && patMatch ps ds
  | none :: ps, _ :: ds => patMatch ps ds

/-- The sniffer's final rule (mimesniff section 5 step 4): a byte that may
not appear in plain text. -/
def sniffBinaryByte (b : Nat) : Bool :=
  b ≤ 8 || b == 11 || (14 ≤ b && b ≤ 26) || (28 ≤ b && b ≤ 31)

/-- Go `http.DetectContentType` on the first 512 body bytes, modelled for
the signature classes textual content can hit: the HTML tag signatures,
the `<?xml` signature, the exact PDF/PostScript signatures, the UTF BOM
signatures, and the final binary-byte scan deciding between
`text/plain; charset=utf-8` and `application/octet-stream`.  The binary
media signatures (images, audio, video, fonts, archives) are omitted:
content starting with such magic numbers would detect as its media type in
Go but as `application/octet-stream` here; no documentation page in scope
starts with one. -/
def detectContentType (s : String) : String :=
  let data := (stringToBytes s).take 512
  let rest := data.dropWhile sniffWS
  if htmlSigs.any (fun sig => htmlSigMatch (stringToBytes sig) rest) then
    "text/html; charset=utf-8"
  else if patMatch ((stringToBytes "<?xml").map some) rest then "text/xml; charset=utf-8"
  else if patMatch ((stringToBytes "%PDF-").map some) data then "application/pdf"
  else if patMatch ((stringToBytes "%!PS-Adobe-").map some) data then "application/postscript"
  else if patMatch [some 254, some 255, none, none] data then "text/plain; charset=utf-16be"
  else if patMatch [some 255, some 254, none, none] data then "text/plain; charset=utf-16le"
  else if patMatch [some 239, some 187, some 191, none] data then "text/plain; charset=utf-8"
  else if rest.all (fun b => !sniffBinaryByte b) then "text/plain; charset=utf-8"
  else "application/octet-stream"

/-- Model of `http.ResponseWriter` per its documented contract.
`headerMap` is the live map returned by `Header()` (always mutable);
`sentHeaders` is the snapshot actually transmitted, fixed at the first
`WriteHeader`; `statusCode` is the transmitted status; `body` collects the
bytes written after the headers. -/
structure ResponseWriter where
  headerMap : List (String × String)
  wroteHeader : Bool
  statusCode : Int
  sentHeaders : List (String × String)
  body : String
deriving DecidableEq, Repr

/-- A writer for a fresh request, before anything has been written. -/
def freshWriter : ResponseWriter :=
  { headerMap := [], wroteHeader := false, statusCode := 0, sentHeaders := [], body := "" }

/-- Go `w.Header().Set(k, v)`: always updates the header map; per the
net/http contract this affects the response only if the headers have not
been written yet. -/
def headerSet (w : ResponseWriter) (k v : String) : ResponseWriter :=
  { w with headerMap := setAssoc w.headerMap k v }

/-- Go `w.WriteHeader(code)`: on its first call, transmits the current
header map and the status code; later calls are no-ops. -/
def writeHeader (w : ResponseWriter) (code : Int) : ResponseWriter :=
  if w.wroteHeader then w
  else { w with wroteHeader := true, statusCode := code, sentHeaders := w.headerMap }

/-- Go `w.Write(bytes)`: an implicit `WriteHeader 200` if the headers are
not written yet; then, per `Write`'s documented contract, if the
transmitted headers contain no `Content-Type` (and no Transfer-Encoding,
which nothing in this package sets), the first non-empty write adds one
sniffed from the body bytes; finally the bytes are appended to the body.
The handlers modelled here write their whole body in a single call, so
sniffing the first write's bytes coincides with Go sniffing the first 512
buffered bytes. -/
def bodyWrite (w : ResponseWriter) (s : String) : ResponseWriter :=
  let w' := writeHeader w 200
  let w' :=
    if w'.body = "" ∧ s ≠ "" ∧ lookupAssoc w'.sentHeaders "Content-Type" = none then
      { w' with sentHeaders := setAssoc w'.sentHeaders "Content-Type" (detectContentType s) }
    else w'
  { w' with body := w'.body ++ s }

/-- Opening brace character, kept symbolic. -/
def lbrace : Char := Char.ofNat 123

/-- Closing brace character, kept symbolic. -/
def rbrace : Char := Char.ofNat 125

/-- Template node: literal text or a field-chain action such as
`\x7b\x7b.Title\x7d\x7d` (field chain `["Title"]`). -/
inductive TplNode
  | lit (s : String)
  | action (fields : List String)
deriving DecidableEq, Repr

/-- Characters the template engine treats as insignificant space inside an
action. -/
def isActionSpace (c : Char) : Bool :=
  c = ' ' || c = '\t' || c = '\n' || c = '\r'

/-- Trim action-space from both ends of a character list. -/
def trimSpaces (cs : List Char) : List Char :=
  ((cs.dropWhile isActionSpace).reverse.dropWhile isActionSpace).reverse

/-- Identifier characters of template field names. -/
def isIdentChar (c : Char) : Bool :=
  c.isAlpha || c.isDigit || c = '_'

/-- Parse the inside of one action: a `.`-led chain of field identifiers.
Any other form is a parse failure of the template source. -/
def parseAction (cs : List Char) : Option (List String) :=
  match trimSpaces cs with
  | [] => none
  | c :: rest =>
    if c = '.' && rest ≠ [] then
      let parts := splitOnChar '.' rest
      if parts.all (fun p => !p.isEmpty && p.all isIdentChar) then some (parts.map String.mk)
      else none
    else none

/-- Fuel-driven template parser: alternating literal text and
`\x7b\x7b ... \x7d\x7d` actions; an unclosed or malformed action is a parse
failure.  The fuel only bounds recursion depth; each step consumes at least
the four brace characters, so `length + 1` fuel always suffices. -/
def tplParseAux : Nat → List Char → Option (List TplNode)
  | 0, _ => none
  | fuel + 1, cs =>
    match splitAtSub [lbrace, lbrace] cs with
    | none => some [TplNode.lit (String.mk cs)]
    | some (before, rest) =>
      match splitAtSub [rbrace, rbrace] rest with
      | none => none
      | some (act, rest2) =>
        match parseAction act with
        | none => none
        | some fields =>
          match tplParseAux fuel rest2 with
          | none => none
          | some ns => some (TplNode.lit (String.mk before) :: TplNode.action fields :: ns)

/-- Model of `html/template` parsing for the field-chain actions this
package's templates use (`template.New(...).Parse`); `none` is the parse
error Go reports. -/
def tplParse (s : String) : Option (List TplNode) :=
  tplParseAux (s.data.length + 1) s.data

/-- The contextual HTML escaping `html/template` applies to an interpolated
value in text context. -/
def htmlEscapeChar (c : Char) : String :=
  if c = '&' then "&amp;"
  else if c = '<' then "&lt;"
  else if c = '>' then "&gt;"
  else if c = '\"' then "&#34;"
  else if c.toNat = 39 then "&#39;"
  else String.singleton c

/-- HTML-escape a whole interpolated value. -/
def htmlEscape (s : String) : String :=
  (s.data.map htmlEscapeChar).foldr (· ++ ·) ""

/-- Model of `Template.Execute` against a `map[string]string` context:
a one-field chain reads the map (missing keys give the zero value `""`,
as Go maps do), and a longer chain fails at execution time, as Go does when
it tries to evaluate a field of a string; `none` is the execution error. -/
def tplExec (ctx : List (String × String)) : List TplNode → Option String
  | [] => some ""
  | TplNode.lit s :: rest => (tplExec ctx rest).map (fun t => s ++ t)
  | TplNode.action [f] :: rest =>
    let v := (lookupAssoc ctx f).getD ""
    (tplExec ctx rest).map (fun t => htmlEscape v ++ t)
  | TplNode.action _ :: _ => none

/-- The dispatch closure stored in `problemHandlers` (rfc7807.go line 105):
immutable once created, it captures the registered `title` and the
documentation URL computed at registration time (spec §3 DispatchClosure). -/
structure ProblemHandler where
  title : String
  docURL : String
deriving DecidableEq, Repr

/-- The registry (Go struct `RFC7807`): the configured base `URL`, the chi
route table (pattern bound to the HTML bytes its GET handler serves), and
the `problemHandlers` map from title to dispatch closure. -/
structure RFC7807 where
  URL : String
  mux : List (String × String)
  problemHandlers : List (String × ProblemHandler)
deriving DecidableEq, Repr

/-- Go `New(url)`: a registry with the given base URL, a fresh mux and an
empty handlers map. -/
def New (url : String) : RFC7807 :=
  { URL := url, mux := [], problemHandlers := [] }

/-- Go `Extension` with its `Ext` constructor: one caller-supplied
key/value pair. -/
structure Extension where
  Key : String
  Value : JsonValue
deriving DecidableEq, Repr

/-- Go `Ext(key, value)`. -/
def Ext (key : String) (value : JsonValue) : Extension :=
  { Key := key, Value := value }

/-- Merging the extensions into the fresh problem object
(rfc7807.go lines 108-110 and 135-137): `problem[e.Key] = e.Value` in
argument order, so a later duplicate overwrites an earlier one. -/
def mergeExtensions (exts : List Extension) : List (String × JsonValue) :=
  exts.foldl (fun m e => setAssoc m e.Key e.Value) []

/-- The problem object a registered dispatch closure serializes
(rfc7807.go lines 106-115): extensions merged first, then the reserved
keys `type`, `title`, `status`, `detail` written in that order. -/
def registeredProblem (docURL title : String) (status : Int) (detail : String)
    (exts : List Extension) : List (String × JsonValue) :=
  setAssoc (setAssoc (setAssoc (setAssoc (mergeExtensions exts)
    "type" (JsonValue.str docURL))
    "title" (JsonValue.str title))
    "status" (JsonValue.int status))
    "detail" (JsonValue.str detail)

/-- The problem object the fallback path of `Error` serializes
(rfc7807.go lines 133-145): extensions merged first, the title replaced by
`http.StatusText(status)` when empty, then `title`, `status`, `detail`
written — and no `type` key. -/
def fallbackProblem (title : String) (status : Int) (detail : String)
    (exts : List Extension) : List (String × JsonValue) :=
  let t := if title = "" then statusText status else title
  setAssoc (setAssoc (setAssoc (mergeExtensions exts)
    "title" (JsonValue.str t))
    "status" (JsonValue.int status))
    "detail" (JsonValue.str detail)

/-- Invoking a stored dispatch closure (rfc7807.go lines 105-122):
`w.WriteHeader(status)`, then `w.Header().Set("Content-Type", ...)`, then
the 2-space-indented JSON encoding of the problem object is written. -/
def runProblemHandler (h : ProblemHandler) (w : ResponseWriter) (status : Int)
    (detail : String) (exts : List Extension) : ResponseWriter :=
  let w := writeHeader w status
  let w := headerSet w "Content-Type" "application/problem+json; charset=utf-8"
  bodyWrite w (encodeProblem (registeredProblem h.docURL h.title status detail exts))

/-- Go `Error` (rfc7807.go lines 127-152): look the title up in
`problemHandlers` and invoke the stored closure, or fall back to writing an
ad-hoc problem with the same wire sequence.  The registry is returned
alongside the writer to make the method's effect on the receiver explicit:
the source never assigns to any field of the receiver here. -/
def Error (r : RFC7807) (w : ResponseWriter) (title : String) (status : Int)
    (detail : String) (exts : List Extension) : RFC7807 × ResponseWriter :=
  match lookupAssoc r.problemHandlers title with
  | some handler => (r, runProblemHandler handler w status detail exts)
  | none =>
    let w := writeHeader w status
    let w := headerSet w "Content-Type" "application/problem+json; charset=utf-8"
    (r, bodyWrite w (encodeProblem (fallbackProblem title status detail exts)))

/-- The route-registration and URL-computation step of `HtmlDoc`
(rfc7807.go lines 86-99).  When the content is non-empty: the pattern
`/<pathEscape title>.html` is installed in the mux serving exactly these
bytes, the base URL is parsed, and the documentation URL is produced by
joining the paths and re-rendering the URL.  `none` models the Go panic:
`url.Parse` failed, its error was discarded, and the nil `*url.URL` is
dereferenced (the route was already installed when the crash happens).
When the content is empty, no route is installed and the URL is `""`. -/
def htmlDocStep (r : RFC7807) (title : String) (html : String) : Option (String × RFC7807) :=
  if html ≠ "" then
    let p := "/" ++ pathEscape title ++ ".html"
    let r' := { r with mux := setAssoc r.mux p html }
    match urlParse r.URL with
    | none => none
    | some u => some (urlString { u with path := pathJoin u.path p }, r')
  else some ("", r)

/-- Go `HtmlDoc` (rfc7807.go lines 81-125): after the step above, a
dispatch closure capturing the title and the computed documentation URL is
stored in `problemHandlers[title]` (overwriting any previous entry) and
returned. -/
def HtmlDoc (r : RFC7807) (title : String) (html : String) : Option (ProblemHandler × RFC7807) :=
  (htmlDocStep r title html).map fun sr =>
    let h : ProblemHandler := { title := title, docURL := sr.1 }
    (h, { sr.2 with problemHandlers := setAssoc sr.2.problemHandlers title h })

/-- The error values `TemplateDoc` can return, named as the spec's
taxonomy does (§7): a template parse failure or an execution failure. -/
inductive TplError
  | parseError
  | execError
deriving DecidableEq, Repr

/-- Go `TemplateDoc` (rfc7807.go lines 56-68): parse the template source,
execute it against `Title`/`Description`, and hand the rendered bytes to
`HtmlDoc`.  On a parse or execution error the function returns before
touching the registry, so the error cases carry the receiver unchanged;
the outer `Option` is `HtmlDoc`'s crash case. -/
def TemplateDoc (r : RFC7807) (title description templateStr : String) :
    Option (Except TplError ProblemHandler × RFC7807) :=
  match tplParse templateStr with
  | none => some (Except.error TplError.parseError, r)
  | some tpl =>
    match tplExec [("Title", title), ("Description", description)] tpl with
    | none => some (Except.error TplError.execError, r)
    | some html =>
      (HtmlDoc r title html).map fun hr => (Except.ok hr.1, hr.2)

/-- The built-in page template (rfc7807.go lines 41-50). -/
def DefaultTemplate : String :=
  "<html>\n  <head>\n    <meta charset=\"utf-8\">\n    <title>Error \x7b\x7b.Title\x7d\x7d</title>\n  </head>\n  <body>\n    <h1>\x7b\x7b.Title\x7d\x7d</h1>\n    <pre>\x7b\x7b.Description\x7d\x7d</pre>\n  </body>\n</html>"

/-- Go `Doc` (rfc7807.go lines 52-54): `TemplateDoc` with the built-in
template. -/
def Doc (r : RFC7807) (title description : String) :
    Option (Except TplError ProblemHandler × RFC7807) :=
  TemplateDoc r title description DefaultTemplate

/-- The GET handler installed for a documentation page
(rfc7807.go lines 90-94): `WriteHeader(200)`, then the Content-Type is set,
then the registered bytes are written verbatim. -/
def docRouteHandler (html : String) (w : ResponseWriter) : ResponseWriter :=
  let w := writeHeader w 200
  let w := headerSet w "Content-Type" "text/html; charset=utf-8"
  bodyWrite w html

/-- The chi default not-found handler (`http.NotFound`). -/
def notFoundHandler (w : ResponseWriter) : ResponseWriter :=
  let w := headerSet w "Content-Type" "text/plain; charset=utf-8"
  let w := headerSet w "X-Content-Type-Options" "nosniff"
  let w := writeHeader w 404
  bodyWrite w "404 page not found\n"

/-- Go `ServeHTTP` (rfc7807.go lines 154-156) together with the chi mux it
delegates to: exact-pattern GET routes serve their registered page; a
non-GET method on an existing pattern is answered 405; anything else falls
through to the router's not-found handler. -/
def ServeHTTP (r : RFC7807) (method path : String) (w : ResponseWriter) : ResponseWriter :=
  match lookupAssoc r.mux path with
  | some html =>
    if method = "GET" then docRouteHandler html w
    else writeHeader w 405
  | none => notFoundHandler w

/-- The last extension with the given key in argument order: per the spec,
the entry that wins a duplicate-key merge. -/
def lastWithKey (k : String) : List Extension → Option Extension
  | [] => none
  | e :: es =>
    match lastWithKey k es with
    | some x => some x
    | none => if e.Key = k then some e else none

/-- Go map lookup after an assignment: the assigned key reads back the new
value, any other key is unaffected. -/
theorem lookupAssoc_setAssoc {α β : Type} [DecidableEq α] (m : List (α × β)) (k k' : α) (v : β) :
    lookupAssoc (setAssoc m k v) k' = if k' = k then some v else lookupAssoc m k' := by
  induction m with
  | nil =>
    by_cases h : k' = k
    · subst h
      simp [setAssoc, lookupAssoc]
    · have h' : ¬k = k' := fun hh => h hh.symm
      simp [setAssoc, lookupAssoc, h, h']
  | cons x xs ih =>
    by_cases h : k' = k
    · subst h
      by_cases hx : x.1 = k'
      · simp [setAssoc, lookupAssoc, hx]
      · simp [setAssoc, lookupAssoc, hx, ih]
    · have h' : ¬k = k' := fun hh => h hh.symm
      by_cases hx : x.1 = k
      · have hx' : ¬x.1 = k' := fun hh => h' (hx.symm.trans hh)
        simp [setAssoc, lookupAssoc, hx, h, h', hx']
      · simp [setAssoc, lookupAssoc, hx, h, h', ih]

/-- Folding extension assignments over an accumulator: the result at a key
is the value of the last extension with that key, or the accumulator's
value when no extension has it. -/
theorem lookupAssoc_foldl_setAssoc (exts : List Extension) (m : List (String × JsonValue)) (k : String) :
    lookupAssoc (exts.foldl (fun acc e => setAssoc acc e.Key e.Value) m) k
      = match lastWithKey k exts with
        | some e => some e.Value
        | none => lookupAssoc m k := by
  induction exts generalizing m with
  | nil => rfl
  | cons e es ih =>
    simp only [List.foldl_cons]
    rw [ih]
    cases h : lastWithKey k es with
    | some x => simp [lastWithKey, h]
    | none =>
      by_cases hk : e.Key = k
      · simp [lastWithKey, h, hk, lookupAssoc_setAssoc]
      · have hk' : ¬k = e.Key := fun hh => hk hh.symm
        simp [lastWithKey, h, hk, hk', lookupAssoc_setAssoc]

/-- The merged extension object maps each key to the value of the last
extension with that key in argument order. -/
theorem lookupAssoc_mergeExtensions (exts : List Extension) (k : String) :
    lookupAssoc (mergeExtensions exts) k = (lastWithKey k exts).map Extension.Value := by
  rw [mergeExtensions, lookupAssoc_foldl_setAssoc]
  cases h : lastWithKey k exts <;> simp [lookupAssoc]

/-- If no extension carries the key, the merge is silent about it. -/
theorem lastWithKey_eq_none (k : String) (exts : List Extension)
    (h : ∀ e ∈ exts, e.Key ≠ k) : lastWithKey k exts = none := by
  induction exts with
  | nil => rfl
  | cons e es ih =>
    have he : e.Key ≠ k := h e (List.mem_cons_self e es)
    have hes := ih (fun x hx => h x (List.mem_cons_of_mem e hx))
    simp [lastWithKey, he, hes]

/-- A registered dispatch body always carries the captured documentation
URL under `type`: the system write lands after the extension merge. -/
theorem registeredProblem_type (docURL title : String) (status : Int) (detail : String)
    (exts : List Extension) :
    lookupAssoc (registeredProblem docURL title status detail exts) "type"
      = some (JsonValue.str docURL) := by
  rw [registeredProblem, lookupAssoc_setAssoc, if_neg (by decide),
    lookupAssoc_setAssoc, if_neg (by decide),
    lookupAssoc_setAssoc, if_neg (by decide),
    lookupAssoc_setAssoc, if_pos rfl]

/-- A registered dispatch body always carries the captured title. -/
theorem registeredProblem_title (docURL title : String) (status : Int) (detail : String)
    (exts : List Extension) :
    lookupAssoc (registeredProblem docURL title status detail exts) "title"
      = some (JsonValue.str title) := by
  rw [registeredProblem, lookupAssoc_setAssoc, if_neg (by decide),
    lookupAssoc_setAssoc, if_neg (by decide),
    lookupAssoc_setAssoc, if_pos rfl]

/-- A registered dispatch body always carries the given status. -/
theorem registeredProblem_status (docURL title : String) (status : Int) (detail : String)
    (exts : List Extension) :
    lookupAssoc (registeredProblem docURL title status detail exts) "status"
      = some (JsonValue.int status) := by
  rw [registeredProblem, lookupAssoc_setAssoc, if_neg (by decide),
    lookupAssoc_setAssoc, if_pos rfl]

/-- A registered dispatch body always carries the given detail. -/
theorem registeredProblem_detail (docURL title : String) (status : Int) (detail : String)
    (exts : List Extension) :
    lookupAssoc (registeredProblem docURL title status detail exts) "detail"
      = some (JsonValue.str detail) := by
  rw [registeredProblem, lookupAssoc_setAssoc, if_pos rfl]

/-- Any key other than the four reserved ones reaches the merged
extensions unchanged in a registered dispatch body. -/
theorem registeredProblem_other (docURL title : String) (status : Int) (detail : String)
    (exts : List Extension) (k : String) (h1 : k ≠ "type") (h2 : k ≠ "title")
    (h3 : k ≠ "status") (h4 : k ≠ "detail") :
    lookupAssoc (registeredProblem docURL title status detail exts) k
      = lookupAssoc (mergeExtensions exts) k := by
  rw [registeredProblem, lookupAssoc_setAssoc, if_neg h4,
    lookupAssoc_setAssoc, if_neg h3,
    lookupAssoc_setAssoc, if_neg h2,
    lookupAssoc_setAssoc, if_neg h1]

/-- The fallback body carries the given title, with the Go
`http.StatusText` substitution when the title is empty. -/
theorem fallbackProblem_title (title : String) (status : Int) (detail : String)
    (exts : List Extension) :
    lookupAssoc (fallbackProblem title status detail exts) "title"
      = some (JsonValue.str (if title = "" then statusText status else title)) := by
  rw [fallbackProblem]
  rw [lookupAssoc_setAssoc, if_neg (by decide),
    lookupAssoc_setAssoc, if_neg (by decide),
    lookupAssoc_setAssoc, if_pos rfl]

/-- The fallback body carries the given status. -/
theorem fallbackProblem_status (title : String) (status : Int) (detail : String)
    (exts : List Extension) :
    lookupAssoc (fallbackProblem title status detail exts) "status"
      = some (JsonValue.int status) := by
  rw [fallbackProblem]
  rw [lookupAssoc_setAssoc, if_neg (by decide), lookupAssoc_setAssoc, if_pos rfl]

/-- The fallback body carries the given detail. -/
theorem fallbackProblem_detail (title : String) (status : Int) (detail : String)
    (exts : List Extension) :
    lookupAssoc (fallbackProblem title status detail exts) "detail"
      = some (JsonValue.str detail) := by
  rw [fallbackProblem]
  rw [lookupAssoc_setAssoc, if_pos rfl]

/-- The fallback path writes no `type` key of its own: whatever the merged
extensions hold under `type` is what the body holds. -/
theorem fallbackProblem_type (title : String) (status : Int) (detail : String)
    (exts : List Extension) :
    lookupAssoc (fallbackProblem title status detail exts) "type"
      = lookupAssoc (mergeExtensions exts) "type" := by
  rw [fallbackProblem]
  rw [lookupAssoc_setAssoc, if_neg (by decide),
    lookupAssoc_setAssoc, if_neg (by decide),
    lookupAssoc_setAssoc, if_neg (by decide)]

/-- Any key other than the three the fallback writes reaches the merged
extensions unchanged. -/
theorem fallbackProblem_other (title : String) (status : Int) (detail : String)
    (exts : List Extension) (k : String) (h2 : k ≠ "title") (h3 : k ≠ "status")
    (h4 : k ≠ "detail") :
    lookupAssoc (fallbackProblem title status detail exts) k
      = lookupAssoc (mergeExtensions exts) k := by
  rw [fallbackProblem]
  rw [lookupAssoc_setAssoc, if_neg h4, lookupAssoc_setAssoc, if_neg h3,
    lookupAssoc_setAssoc, if_neg h2]

/-- Writing the status line does not touch the body. -/
theorem writeHeader_body (w : ResponseWriter) (c : Int) : (writeHeader w c).body = w.body := by
  unfold writeHeader
  split <;> rfl

/-- Setting a header does not touch the body. -/
theorem headerSet_body (w : ResponseWriter) (k v : String) : (headerSet w k v).body = w.body :=
  rfl

/-- A body write appends exactly the written bytes (the sniffed
Content-Type only touches the transmitted headers). -/
theorem bodyWrite_body (w : ResponseWriter) (s : String) : (bodyWrite w s).body = w.body ++ s := by
  simp only [bodyWrite]
  split <;> simp [writeHeader_body]

/-- C1 (counterexample): the claim fails on the fallback path of `Error`.
Dispatching the unregistered title `"Nope"` with the extension
`("type", "bogus")` yields a body whose `type` is the caller-supplied
`"bogus"` — the fallback path never writes a system `type`, so nothing
overrides the extension. -/
theorem C1_counterexample :
    lookupAssoc (fallbackProblem "Nope" 500 "boom" [Ext "type" (JsonValue.str "bogus")]) "type"
      = some (JsonValue.str "bogus") ∧
    (Error (New "http://example.com") freshWriter "Nope" 500 "boom"
        [Ext "type" (JsonValue.str "bogus")]).2.body
      = encodeProblem (fallbackProblem "Nope" 500 "boom" [Ext "type" (JsonValue.str "bogus")]) := by
  decide

/-- C1 (amended): extensions are merged first and the system fields are
written afterwards, but only the fields the path in question writes.  On
the registered path all four reserved keys `type`, `title`, `status`,
`detail` carry the system-computed values, overriding same-named
extensions; on the fallback path `title`, `status`, `detail` do, while
`type` is whatever the merged extensions contain, since the fallback
writes no `type` of its own. -/
theorem C1_reserved_key_order (docURL title T2 : String) (status : Int) (detail : String)
    (exts : List Extension) :
    lookupAssoc (registeredProblem docURL title status detail exts) "type"
      = some (JsonValue.str docURL) ∧
    lookupAssoc (registeredProblem docURL title status detail exts) "title"
      = some (JsonValue.str title) ∧
    lookupAssoc (registeredProblem docURL title status detail exts) "status"
      = some (JsonValue.int status) ∧
    lookupAssoc (registeredProblem docURL title status detail exts) "detail"
      = some (JsonValue.str detail) ∧
    lookupAssoc (fallbackProblem T2 status detail exts) "title"
      = some (JsonValue.str (if T2 = "" then statusText status else T2)) ∧
    lookupAssoc (fallbackProblem T2 status detail exts) "status"
      = some (JsonValue.int status) ∧
    lookupAssoc (fallbackProblem T2 status detail exts) "detail"
      = some (JsonValue.str detail) ∧
    lookupAssoc (fallbackProblem T2 status detail exts) "type"
      = lookupAssoc (mergeExtensions exts) "type" :=
  ⟨registeredProblem_type docURL title status detail exts,
   registeredProblem_title docURL title status detail exts,
   registeredProblem_status docURL title status detail exts,
   registeredProblem_detail docURL title status detail exts,
   fallbackProblem_title T2 status detail exts,
   fallbackProblem_status T2 status detail exts,
   fallbackProblem_detail T2 status detail exts,
   fallbackProblem_type T2 status detail exts⟩

/-- C2 (code bug): both dispatch paths call `WriteHeader(status)` before
`Header().Set("Content-Type", ...)`.  Per the net/http contract the header
map change after `WriteHeader` has no effect, so the documented value sits
only in the dead header map and the transmitted `Content-Type` is the one
net/http sniffs from the JSON body — `text/plain; charset=utf-8`, never
the claimed `application/problem+json; charset=utf-8` — even though the
status code and the 2-space-indented JSON body are exactly as specified.
Shown on the fallback path and, in the final conjunct, on the registered
path. -/
theorem C2_content_type_not_sent :
    (Error (New "http://example.com") freshWriter "T" 404 "no such user" []).2.statusCode = 404 ∧
    lookupAssoc (Error (New "http://example.com") freshWriter "T" 404 "no such user"
        []).2.sentHeaders "Content-Type" = some "text/plain; charset=utf-8" ∧
    lookupAssoc (Error (New "http://example.com") freshWriter "T" 404 "no such user"
        []).2.sentHeaders "Content-Type" ≠ some "application/problem+json; charset=utf-8" ∧
    lookupAssoc (Error (New "http://example.com") freshWriter "T" 404 "no such user"
        []).2.headerMap "Content-Type" = some "application/problem+json; charset=utf-8" ∧
    (Error (New "http://example.com") freshWriter "T" 404 "no such user" []).2.body
      = encodeProblem (fallbackProblem "T" 404 "no such user" []) ∧
    ((HtmlDoc (New "http://example.com") "T" "<p>doc</p>").map fun x =>
        let w2 := (Error x.2 freshWriter "T" 404 "no such user" []).2
        (w2.statusCode, lookupAssoc w2.sentHeaders "Content-Type", w2.body))
      = some (404, some "text/plain; charset=utf-8",
          encodeProblem (registeredProblem "http://example.com/T.html" "T" 404 "no such user" [])) := by
  decide

/-- C3 (counterexample): the fallback body is not always free of a `type`
field — an extension keyed `type` survives into the body of a dispatch of
an unregistered title. -/
theorem C3_counterexample :
    lookupAssoc (New "https://api.example.com").problemHandlers "Missing" = none ∧
    lookupAssoc (fallbackProblem "Missing" 404 "gone"
        [Ext "type" (JsonValue.str "https://evil.example/x")]) "type"
      = some (JsonValue.str "https://evil.example/x") := by
  decide

/-- C3 (amended): for every title missing from the handlers map, `Error`
always writes a complete fallback problem body — system `title` (the
standard status text when the given title is empty), `status` and `detail`
— and the body contains no `type` field provided no caller extension uses
the key `type`. -/
theorem C3_fallback_complete (r : RFC7807) (w : ResponseWriter) (title : String) (status : Int)
    (detail : String) (exts : List Extension)
    (hmiss : lookupAssoc r.problemHandlers title = none)
    (hext : ∀ e ∈ exts, e.Key ≠ "type") :
    lookupAssoc (fallbackProblem title status detail exts) "type" = none ∧
    lookupAssoc (fallbackProblem title status detail exts) "title"
      = some (JsonValue.str (if title = "" then statusText status else title)) ∧
    lookupAssoc (fallbackProblem title status detail exts) "status"
      = some (JsonValue.int status) ∧
    lookupAssoc (fallbackProblem title status detail exts) "detail"
      = some (JsonValue.str detail) ∧
    (Error r w title status detail exts).2.body
      = w.body ++ encodeProblem (fallbackProblem title status detail exts) := by
  refine ⟨?_, fallbackProblem_title title status detail exts,
    fallbackProblem_status title status detail exts,
    fallbackProblem_detail title status detail exts, ?_⟩
  · rw [fallbackProblem_type, lookupAssoc_mergeExtensions, lastWithKey_eq_none _ _ hext]
    rfl
  · simp only [Error, hmiss, bodyWrite_body, headerSet_body, writeHeader_body]

/-- C3 witness: dispatching the never-registered empty title on a fresh
registry with a harmless extension satisfies both hypotheses; the fallback
title for status 404 is the standard text `Not Found`. -/
theorem C3_fallback_complete_witness :
    lookupAssoc (New "http://example.com").problemHandlers "" = none ∧
    (∀ e ∈ [Ext "trace" (JsonValue.int 7)], e.Key ≠ "type") ∧
    (lookupAssoc (fallbackProblem "" 404 "no such user" [Ext "trace" (JsonValue.int 7)]) "type"
        = none ∧
      lookupAssoc (fallbackProblem "" 404 "no such user" [Ext "trace" (JsonValue.int 7)]) "title"
        = some (JsonValue.str (if ("" : String) = "" then statusText 404 else "")) ∧
      lookupAssoc (fallbackProblem "" 404 "no such user" [Ext "trace" (JsonValue.int 7)]) "status"
        = some (JsonValue.int 404) ∧
      lookupAssoc (fallbackProblem "" 404 "no such user" [Ext "trace" (JsonValue.int 7)]) "detail"
        = some (JsonValue.str "no such user") ∧
      (Error (New "http://example.com") freshWriter "" 404 "no such user"
          [Ext "trace" (JsonValue.int 7)]).2.body
        = freshWriter.body ++ encodeProblem (fallbackProblem "" 404 "no such user"
            [Ext "trace" (JsonValue.int 7)])) :=
  ⟨rfl, by decide,
    C3_fallback_complete (New "http://example.com") freshWriter "" 404 "no such user"
      [Ext "trace" (JsonValue.int 7)] rfl (by decide)⟩

/-- C4: after two successive registrations of the same title, the handlers
map holds exactly the closure stored second, a dispatch through `Error`
invokes it, and the emitted `type` is the documentation URL captured at
the second registration. -/
theorem C4_last_registration_wins (r r1 r2 : RFC7807) (T h1 h2 : String)
    (ph1 ph2 : ProblemHandler) (w : ResponseWriter) (status : Int) (detail : String)
    (exts : List Extension)
    (hreg1 : HtmlDoc r T h1 = some (ph1, r1))
    (hreg2 : HtmlDoc r1 T h2 = some (ph2, r2)) :
    lookupAssoc r2.problemHandlers T = some ph2 ∧
    ph2.title = T ∧
    (Error r2 w T status detail exts).2.body
      = w.body ++ encodeProblem (registeredProblem ph2.docURL T status detail exts) ∧
    lookupAssoc (registeredProblem ph2.docURL T status detail exts) "type"
      = some (JsonValue.str ph2.docURL) := by
  rcases Option.map_eq_some'.mp hreg2 with ⟨sr, hsr, heq⟩
  simp only [Prod.mk.injEq] at heq
  obtain ⟨hph, hr2⟩ := heq
  subst hph
  subst hr2
  refine ⟨?_, rfl, ?_, registeredProblem_type _ _ _ _ _⟩
  · simp [lookupAssoc_setAssoc]
  · simp [Error, lookupAssoc_setAssoc, runProblemHandler, bodyWrite_body, headerSet_body,
      writeHeader_body]

/-- Handler stored by the first registration of the C4 witness scenario. -/
def phFirst : ProblemHandler :=
  { title := "T", docURL := "" }

/-- Handler stored by the second registration of the C4 witness scenario. -/
def phSecond : ProblemHandler :=
  { title := "T", docURL := "http://example.com/T.html" }

/-- Registry after registering `T` with empty content. -/
def regFirst : RFC7807 :=
  { URL := "http://example.com", mux := [], problemHandlers := [("T", phFirst)] }

/-- Registry after re-registering `T` with non-empty content. -/
def regSecond : RFC7807 :=
  { URL := "http://example.com", mux := [("/T.html", "<p>v2</p>")],
    problemHandlers := [("T", phSecond)] }

/-- C4 witness: register `T` first with empty content (documentation URL
`""`), then with non-empty content (documentation URL
`http://example.com/T.html`); dispatch after the second registration uses
the second closure and its URL. -/
theorem C4_last_registration_wins_witness :
    HtmlDoc (New "http://example.com") "T" "" = some (phFirst, regFirst) ∧
    HtmlDoc regFirst "T" "<p>v2</p>" = some (phSecond, regSecond) ∧
    (lookupAssoc regSecond.problemHandlers "T" = some phSecond ∧
      phSecond.title = "T" ∧
      (Error regSecond freshWriter "T" 403 "forbidden" []).2.body
        = freshWriter.body ++ encodeProblem (registeredProblem phSecond.docURL "T" 403 "forbidden" []) ∧
      lookupAssoc (registeredProblem phSecond.docURL "T" 403 "forbidden" []) "type"
        = some (JsonValue.str phSecond.docURL)) :=
  ⟨by decide, by decide,
    C4_last_registration_wins (New "http://example.com") regFirst regSecond
      "T" "" "<p>v2</p>" phFirst phSecond
      freshWriter 403 "forbidden" [] (by decide) (by decide)⟩

/-- C5 (counterexample): for the title `Bad Input` the stored documentation
URL is not the base URL joined with the documentation path
`/Bad%20Input.html`.  Assigning the escaped path to `url.Path` and calling
`url.String()` re-escapes it, so the stored URL reads
`/Bad%2520Input.html`. -/
theorem C5_counterexample :
    ((HtmlDoc (New "http://example.com") "Bad Input" "<p>x</p>").map fun x => x.1.docURL)
      = some "http://example.com/Bad%2520Input.html" ∧
    ((HtmlDoc (New "http://example.com") "Bad Input" "<p>x</p>").map fun x => x.1.docURL)
      ≠ some "http://example.com/Bad%20Input.html" := by
  decide

/-- C5 (amended): with non-empty content the route is installed at
`/<pathEscape title>.html` and serves the content; the stored documentation
URL is the parsed base URL re-rendered with the documentation path joined
onto its path by `path.Join` semantics — which re-escapes the joined path,
so any `%` produced by escaping the title becomes `%25` (when the title
needs no escaping the URL is exactly the joined form).  With empty or nil
content no route is installed and the documentation URL is empty. -/
theorem C5_registration_amended (r : RFC7807) (title html : String) (u : GoURL)
    (hu : urlParse r.URL = some u) (hne : html ≠ "") :
    ((HtmlDoc r title html).map fun x => x.1.docURL)
      = some (urlString (GoURL.mk u.scheme u.host
          (pathJoin u.path ("/" ++ pathEscape title ++ ".html")))) ∧
    ((HtmlDoc r title html).bind fun x =>
        lookupAssoc x.2.mux ("/" ++ pathEscape title ++ ".html"))
      = some html ∧
    ((HtmlDoc r title "").map fun x => (x.1.docURL, x.2.mux)) = some ("", r.mux) := by
  refine ⟨?_, ?_, ?_⟩ <;>
    simp [HtmlDoc, htmlDocStep, hu, hne, lookupAssoc_setAssoc]

/-- C5 witness: base URL `http://example.com/api/` (trailing slash) and
title `T`: the route pattern is `/T.html` and the documentation URL is
`http://example.com/api/T.html` — path-joined, not naively concatenated. -/
theorem C5_registration_amended_witness :
    urlParse (New "http://example.com/api/").URL
      = some { scheme := "http", host := "example.com", path := "/api/" } ∧
    ("<p>doc</p>" : String) ≠ "" ∧
    (((HtmlDoc (New "http://example.com/api/") "T" "<p>doc</p>").map fun x => x.1.docURL)
        = some (urlString (GoURL.mk "http" "example.com"
            (pathJoin "/api/" ("/" ++ pathEscape "T" ++ ".html")))) ∧
      ((HtmlDoc (New "http://example.com/api/") "T" "<p>doc</p>").bind fun x =>
          lookupAssoc x.2.mux ("/" ++ pathEscape "T" ++ ".html"))
        = some "<p>doc</p>" ∧
      ((HtmlDoc (New "http://example.com/api/") "T" "").map fun x => (x.1.docURL, x.2.mux))
        = some ("", (New "http://example.com/api/").mux)) :=
  ⟨by decide, by decide,
    C5_registration_amended (New "http://example.com/api/") "T" "<p>doc</p>"
      { scheme := "http", host := "example.com", path := "/api/" } (by decide) (by decide)⟩

/-- C6: if the template source fails to parse or to execute, `TemplateDoc`
(and therefore `Doc`) returns the error with the registry unchanged — no
closure stored, no route installed; registration is atomic on error. -/
theorem C6_registration_atomic_on_error (r : RFC7807) (title description templateStr : String)
    (e : TplError) (r' : RFC7807)
    (h : TemplateDoc r title description templateStr = some (Except.error e, r')) :
    r' = r := by
  unfold TemplateDoc at h
  split at h
  · simp only [Option.some.injEq, Prod.mk.injEq] at h
    exact h.2.symm
  · split at h
    · simp only [Option.some.injEq, Prod.mk.injEq] at h
      exact h.2.symm
    · rcases Option.map_eq_some'.mp h with ⟨a, _, hfa⟩
      simp only [Prod.mk.injEq] at hfa
      exact absurd hfa.1 (by simp)

/-- Decidable equality for registration results (needed to evaluate the C6
witness scenario). -/
instance {ε α : Type} [DecidableEq ε] [DecidableEq α] : DecidableEq (Except ε α) :=
  fun a b =>
    match a, b with
    | Except.error x, Except.error y =>
      if h : x = y then isTrue (congrArg Except.error h)
      else isFalse fun hh => h (Except.error.inj hh)
    | Except.error _, Except.ok _ => isFalse fun hh => Except.noConfusion hh
    | Except.ok _, Except.error _ => isFalse fun hh => Except.noConfusion hh
    | Except.ok x, Except.ok y =>
      if h : x = y then isTrue (congrArg Except.ok h)
      else isFalse fun hh => h (Except.ok.inj hh)

/-- Registry used by the C6 witness: one title already registered, to show
the failed registration leaves existing state intact. -/
def regSample : RFC7807 :=
  { URL := "http://example.com", mux := [("/Old.html", "<p>old</p>")],
    problemHandlers := [("Old", { title := "Old", docURL := "http://example.com/Old.html" })] }

/-- C6 witness: the template source `\x7b\x7b.Title` has an unclosed
action, so `TemplateDoc` reports a parse error and returns the registry
as it was. -/
theorem C6_registration_atomic_on_error_witness :
    TemplateDoc regSample "T" "D" "\x7b\x7b.Title"
      = some (Except.error TplError.parseError, regSample) ∧
    regSample = regSample :=
  ⟨by decide,
    C6_registration_atomic_on_error regSample "T" "D" "\x7b\x7b.Title"
      TplError.parseError regSample (by decide)⟩

/-- C7 (code bug): the documentation route always serves status 200 and
the registered bytes verbatim, but its handler calls `WriteHeader(200)`
before `Header().Set("Content-Type", "text/html; charset=utf-8")`, so the
intended value sits only in the dead header map and the wire carries
whatever net/http sniffs from the body.  Registered content `hello world`
is transmitted as `text/plain; charset=utf-8`, refuting the claimed
`text/html; charset=utf-8`; content matching an HTML signature, such as
`<h1>hi</h1>`, is sniffed as `text/html; charset=utf-8` and masks the
slip. -/
theorem C7_doc_route_served :
    ((HtmlDoc (New "http://example.com") "T" "hello world").map fun x =>
        let w := ServeHTTP x.2 "GET" "/T.html" freshWriter
        (w.statusCode, w.body, lookupAssoc w.sentHeaders "Content-Type",
          lookupAssoc w.headerMap "Content-Type"))
      = some (200, "hello world", some "text/plain; charset=utf-8",
          some "text/html; charset=utf-8") ∧
    detectContentType "hello world" ≠ "text/html; charset=utf-8" ∧
    ((HtmlDoc (New "http://example.com") "T" "<h1>hi</h1>").map fun x =>
        let w := ServeHTTP x.2 "GET" "/T.html" freshWriter
        (w.statusCode, w.body, lookupAssoc w.sentHeaders "Content-Type"))
      = some (200, "<h1>hi</h1>", some "text/html; charset=utf-8") := by
  decide

/-- C8 (counterexample): a duplicated key does not always map to the last
extension's value — a registered dispatch with extensions
`[("title", "first"), ("title", "second")]` emits the system title `T`,
not `second`. -/
theorem C8_counterexample :
    ((HtmlDoc (New "http://example.com") "T" "<p>doc</p>").map fun x =>
        lookupAssoc (registeredProblem x.1.docURL x.1.title 400 "d"
          [Ext "title" (JsonValue.str "first"), Ext "title" (JsonValue.str "second")]) "title")
      = some (some (JsonValue.str "T")) ∧
    JsonValue.str "T" ≠ JsonValue.str "second" := by
  decide

/-- C8 (amended): inside the merge, later duplicate entries always
overwrite earlier ones; the resulting body maps a duplicated key to the
value of the last extension with that key in argument order, provided the
key is not one the dispatch path overwrites afterwards (`title`, `status`,
`detail` on both paths, and additionally `type` on the registered path). -/
theorem C8_duplicates_last_wins (docURL title : String) (status : Int) (detail : String)
    (exts : List Extension) (k : String)
    (h2 : k ≠ "title") (h3 : k ≠ "status") (h4 : k ≠ "detail") :
    lookupAssoc (fallbackProblem title status detail exts) k
      = (lastWithKey k exts).map Extension.Value ∧
    (k ≠ "type" →
      lookupAssoc (registeredProblem docURL title status detail exts) k
        = (lastWithKey k exts).map Extension.Value) := by
  constructor
  · rw [fallbackProblem_other title status detail exts k h2 h3 h4, lookupAssoc_mergeExtensions]
  · intro h1
    rw [registeredProblem_other docURL title status detail exts k h1 h2 h3 h4,
      lookupAssoc_mergeExtensions]

/-- C8 witness: duplicated non-reserved key `a` with values 1 then 2 maps
to the last value on both dispatch paths. -/
theorem C8_duplicates_last_wins_witness :
    ("a" : String) ≠ "title" ∧ ("a" : String) ≠ "status" ∧ ("a" : String) ≠ "detail" ∧
    (lookupAssoc (fallbackProblem "T" 404 "d" [Ext "a" (JsonValue.int 1), Ext "a" (JsonValue.int 2)]) "a"
        = (lastWithKey "a" [Ext "a" (JsonValue.int 1), Ext "a" (JsonValue.int 2)]).map Extension.Value ∧
      (("a" : String) ≠ "type" →
        lookupAssoc (registeredProblem "http://example.com/T.html" "T" 404 "d"
            [Ext "a" (JsonValue.int 1), Ext "a" (JsonValue.int 2)]) "a"
          = (lastWithKey "a" [Ext "a" (JsonValue.int 1), Ext "a" (JsonValue.int 2)]).map Extension.Value)) :=
  ⟨by decide, by decide, by decide,
    C8_duplicates_last_wins "http://example.com/T.html" "T" 404 "d"
      [Ext "a" (JsonValue.int 1), Ext "a" (JsonValue.int 2)] "a"
      (by decide) (by decide) (by decide)⟩

/-- C9: `Error` never mutates the registry — base URL, route table and
handlers map are returned exactly as given on both the registered and the
fallback path; the dispatch only reads shared state and writes to the
caller's response writer. -/
theorem C9_error_preserves_registry (r : RFC7807) (w : ResponseWriter) (title : String)
    (status : Int) (detail : String) (exts : List Extension) :
    (Error r w title status detail exts).1 = r := by
  cases h : lookupAssoc r.problemHandlers title <;> simp [Error, h]

/-- C10: `New` accepts any string as the base URL, including one the URL
parser rejects (here a URL containing the control byte `0x00`); registering
a title with non-empty content then crashes: `HtmlDoc` discards the
`url.Parse` error and dereferences the resulting nil URL, modelled by the
`none` result. -/
theorem C10_unparseable_base_crash :
    containsCtl "http://example.com/\x00a" = true ∧
    urlParse "http://example.com/\x00a" = none ∧
    New "http://example.com/\x00a"
      = { URL := "http://example.com/\x00a", mux := [], problemHandlers := [] } ∧
    HtmlDoc (New "http://example.com/\x00a") "T" "<p>doc</p>" = none := by
  decide

end Rfc7807
